import Mathlib

/-!
Verification development for the adaptive quiz engine (skill-games).

Shallow embedding of the core state machine and selection logic of
`game_logic.py`, the alternative state machine of `adaptive.py`, the
mastery-ledger commit of `firebase_utils.py`, and the attempt reporter of
`report_utils.py`.  Python dicts holding fixed fields become structures;
Python sets become `Finset` where order is unspecified, or explicit
union-of-lists where the code only tests membership; `random.choice` is
modelled by an extra index argument `k`, choosing element `k % length` of
the candidate list, so that theorems quantify over every possible choice.
-/

namespace SkillGames

/-- A question record as loaded from the question bank
(fields relevant to the core: id, answer, difficulty, topic, concepts). -/
structure Question where
  id : String
  answer : String
  difficulty : Nat
  topic : String
  deriving Repr, DecidableEq

/-- Embeds `POINTS_PER_DIFFICULTY.get(d, 1)` from game_logic.py:
{1: 1, 2: 2, 3: 3} with default 1 for a key outside the table. -/
def POINTS_PER_DIFFICULTY (d : Nat) : Nat :=
  if d = 1 then 1 else if d = 2 then 2 else if d = 3 then 3 else 1

/-- `CORRECTS_TO_PROMOTE` from game_logic.py. -/
def CORRECTS_TO_PROMOTE : Nat := 3

/-- `DIFFICULTY_LEVELS` from game_logic.py. -/
def DIFFICULTY_LEVELS : List Nat := [1, 2, 3]

/-- The per-attempt game state dict created by `init_user_game_state`. -/
structure GameState where
  current_level : Nat
  streak_at_level : Nat
  total_points : Nat
  max_streak : Nat
  current_streak : Nat
  answered_this_attempt : List String
  deriving Repr, DecidableEq

/-- `init_user_game_state()` from game_logic.py. -/
def init_user_game_state : GameState :=
  { current_level := 1
    streak_at_level := 0
    total_points := 0
    max_streak := 0
    current_streak := 0
    answered_this_attempt := [] }

/-- Points awarded for an answer in `process_answer`:
`POINTS_PER_DIFFICULTY.get(int(question.difficulty), 1) if correct else 0`. -/
def awarded_points (question : Question) (correct : Bool) : Nat :=
  if correct then POINTS_PER_DIFFICULTY question.difficulty else 0

/-- The game-state update portion of `process_answer` in game_logic.py
(lines 337-358), given whether the submitted answer was correct:
append the id, update streaks, add points and promote/demote. -/
def process_answer_state (question : Question) (correct : Bool) (s : GameState) : GameState :=
  let points := awarded_points question correct
  let s1 := { s with answered_this_attempt := s.answered_this_attempt ++ [question.id] }
  let s2 := { s1 with current_streak := s1.current_streak + (if correct then 1 else 0) }
  let s3 := { s2 with max_streak := max s2.max_streak s2.current_streak }
  if correct then
    let s4 := { s3 with total_points := s3.total_points + points
                        streak_at_level := s3.streak_at_level + 1 }
    if s4.streak_at_level ≥ CORRECTS_TO_PROMOTE then
      { s4 with current_level :=
                  if s4.current_level < 3 then s4.current_level + 1 else s4.current_level
                streak_at_level := 0 }
    else s4
  else
    { s3 with current_level :=
                if s3.current_level > 1 then s3.current_level - 1 else s3.current_level
              streak_at_level := 0
              current_streak := 0 }

/-- `process_answer`'s correctness test and points computation
(`correct = selected == question.get("answer")`), returning the points
awarded together with the updated state. -/
def process_answer (question : Question) (selected : String) (s : GameState) :
    Nat × GameState :=
  let correct := selected == question.answer
  (awarded_points question correct, process_answer_state question correct s)

/-- Folding a finite sequence of answered questions with their outcomes
through `process_answer_state`. -/
def run_answers (s : GameState) (outcomes : List (Question × Bool)) : GameState :=
  outcomes.foldl (fun st qb => process_answer_state qb.1 qb.2 st) s

/-- The eligible candidates in `select_question`:
questions whose difficulty equals the current level and whose id is not
in the exclusion set. -/
def select_candidates (questions : List Question) (current_level : Nat)
    (excluded_ids : List String) : List Question :=
  questions.filter (fun q => q.difficulty == current_level && !(excluded_ids.contains q.id))

/-- `select_question` from game_logic.py: `random.choice(candidates)` on a
non-empty candidate list is modelled by the extra index `k`, picking
element `k % length`; returns none when no candidate exists. -/
def select_question (questions : List Question) (current_level : Nat)
    (excluded_ids : List String) (k : Nat) : Option Question :=
  let candidates := select_candidates questions current_level excluded_ids
  if candidates.isEmpty then none
  else candidates.get? (k % candidates.length)

/-- The fallback loop at the end of `process_answer` (lines 374-380): try the
remaining difficulty levels in enum order, skipping the current one, and
return the first level's pick that exists. -/
def fallback_levels (questions : List Question) (excluded : List String) (k : Nat) :
    List Nat → Option Question
  | [] => none
  | lvl :: rest =>
    match select_question questions lvl excluded k with
    | some q => some q
    | none => fallback_levels questions excluded k rest

/-- The next-question selection performed inside `process_answer`
(lines 371-380): pick at the current level, else fall back over the other
levels in `DIFFICULTY_LEVELS` order. -/
def process_answer_next (questions : List Question) (current_level : Nat)
    (excluded : List String) (k : Nat) : Option Question :=
  match select_question questions current_level excluded k with
  | some q => some q
  | none =>
      fallback_levels questions excluded k (DIFFICULTY_LEVELS.filter (fun l => l ≠ current_level))

/-- `get_next_question` from game_logic.py (lines 281-299), on the
topic-filtered pool with the exclusion set already computed: try
`select_question` at the current level; when that yields nothing, serve the
first non-excluded question of the pool in stored order; when none remains,
return none. -/
def get_next_question (questions : List Question) (excluded : List String)
    (current_level : Nat) (k : Nat) : Option Question :=
  match select_question questions current_level excluded k with
  | some q => some q
  | none =>
      let available := questions.filter (fun q => !(excluded.contains q.id))
      available.head?

/-- The exclusion set used by both `process_answer` and `get_next_question`:
`excluded_forever.union(excluded_this_session)`, the learner's permanent
mastery set unioned with `answered_this_attempt` (membership in the union is
membership in the appended list). -/
def total_excluded (mastery : List String) (s : GameState) : List String :=
  mastery ++ s.answered_this_attempt

/-- One round of the attempt loop: if a question is on offer, process an
answer to it through `process_answer_state`, then choose the next question
through `process_answer_next` with the exclusion set rebuilt from the
mastery set and the updated `answered_this_attempt`. -/
def attempt_step (questions : List Question) (mastery : List String)
    (sq : GameState × Option Question) (input : Bool × Nat) :
    GameState × Option Question :=
  match sq.2 with
  | none => sq
  | some q =>
      let s' := process_answer_state q input.1 sq.1
      (s', process_answer_next questions s'.current_level (total_excluded mastery s') input.2)

/-- A whole attempt: initial state from `init_user_game_state`, first
question from `get_next_question`, then one `attempt_step` per submitted
answer (each input is the answer's correctness and the random index). -/
def attempt_run (questions : List Question) (mastery : List String) (k0 : Nat)
    (inputs : List (Bool × Nat)) : GameState × Option Question :=
  inputs.foldl (attempt_step questions mastery)
    (init_user_game_state,
     get_next_question questions (total_excluded mastery init_user_game_state)
       init_user_game_state.current_level k0)

/-- The static skill-tree entry for one topic from `TOPICS` in game_logic.py. -/
structure TopicInfo where
  id : String
  prerequisites : List String
  points_required : Nat
  deriving Repr, DecidableEq

/-- `TOPICS` from game_logic.py, an insertion-ordered dict embedded as an
association list. -/
def TOPICS : List (String × TopicInfo) :=
  [("Hypothesis Testing", { id := "hypothesis_testing", prerequisites := [], points_required := 0 }),
   ("One Sample T-Test",
      { id := "one_sample_ttest", prerequisites := ["hypothesis_testing"], points_required := 1 }),
   ("Two Sample T-Test",
      { id := "two_sample_ttest", prerequisites := ["hypothesis_testing"], points_required := 1 })]

/-- The learner record fields read by the skill-tree gate (`user_data`);
a falsy `user_data` is the `none` case at call sites. -/
structure UserData where
  answered_questions : List String
  deriving Repr, DecidableEq

/-- The `points` field computed by `get_topic_stats` in game_logic.py:
0 when `user_data` or `questions` is falsy or the topic has no questions,
else the sum of difficulty-based point values over the topic's questions
whose ids are in the learner's `answered_questions`. -/
def topic_points (user_data : Option UserData) (questions : List Question)
    (topic : String) : Nat :=
  match user_data with
  | none => 0
  | some ud =>
      if questions.isEmpty then 0
      else
        let topic_questions := questions.filter (fun q => q.topic == topic)
        if topic_questions.isEmpty then 0
        else
          let mastered := topic_questions.filter (fun q => ud.answered_questions.contains q.id)
          mastered.foldl (fun acc q => acc + POINTS_PER_DIFFICULTY q.difficulty) 0

/-- Dict lookup `TOPICS.get(topic)`. -/
def findTopic (topic : String) : Option TopicInfo :=
  (TOPICS.find? (fun p => p.1 == topic)).map Prod.snd

/-- The inner loop of `is_topic_unlocked` that resolves a prerequisite id
back to a topic name. -/
def findTopicNameById (pid : String) : Option String :=
  (TOPICS.find? (fun p => p.2.id == pid)).map Prod.fst

/-- `is_topic_unlocked` from game_logic.py (lines 222-255): falsy user data
unlocks only the root; the root is always unlocked; an unknown topic is
locked; otherwise each prerequisite topic's points are checked against that
prerequisite's own `points_required`, and then the summed prerequisite
points are checked against the topic's `points_required`. -/
def is_topic_unlocked (topic : String) (user_data : Option UserData)
    (questions : List Question) : Bool :=
  match user_data with
  | none => topic == "Hypothesis Testing"
  | some _ =>
      if topic == "Hypothesis Testing" then true
      else
        match findTopic topic with
        | none => false
        | some info =>
            let prereq_ok := info.prerequisites.all (fun pid =>
              match findTopicNameById pid with
              | none => true
              | some pname =>
                  match findTopic pname with
                  | none => true
                  | some pinfo =>
                      decide (pinfo.points_required ≤ topic_points user_data questions pname))
            if prereq_ok then
              let total_prereq_points :=
                (TOPICS.filter (fun p => info.prerequisites.contains p.2.id)).foldl
                  (fun acc p => acc + topic_points user_data questions p.1) 0
              decide (info.points_required ≤ total_prereq_points)
            else false

/-- The stored learner record fields touched by
`update_user_best_and_answers` in firebase_utils.py.  The Python code keeps
`answered_questions` as a list but only ever writes `list(set(...))`, whose
order is unspecified, so the field is embedded as a `Finset`. -/
structure StoredUser where
  best_score : Nat
  answered_questions : Finset String
  deriving DecidableEq

/-- The learner record written by `create_user_record` in firebase_utils.py:
`best_score = 0`, `answered_questions = []`. -/
def create_user_record : StoredUser :=
  { best_score := 0, answered_questions := ∅ }

/-- `update_user_best_and_answers` from firebase_utils.py (lines 83-108):
`prev_answers = set(stored); prev_answers.update(new_answered_ids);
new_best = max(stored_best, best_score)` and both are written back. -/
def update_user_best_and_answers (best_score : Nat) (new_answered_ids : List String)
    (data : StoredUser) : StoredUser :=
  { best_score := max data.best_score best_score
    answered_questions := data.answered_questions ∪ new_answered_ids.toFinset }

/-- Committing a sequence of attempt results (total points and mastered ids
per attempt) to the stored record, in order. -/
def commit_attempts (data : StoredUser) (attempts : List (Nat × List String)) : StoredUser :=
  attempts.foldl (fun d a => update_user_best_and_answers a.1 a.2 d) data

end SkillGames

namespace Report

/-- One entry of `questions_attempted` in the attempt log, with the fields
read by `get_concept_performance` (concepts, correct, pts_awarded,
difficulty). -/
structure AttemptEntry where
  concepts : List String
  correct : Bool
  pts_awarded : Nat
  difficulty : Nat
  deriving Repr, DecidableEq

/-- The per-concept accumulator dict value in `get_concept_performance`. -/
structure ConceptStats where
  attempts : Nat
  correct : Nat
  points : Nat
  total_possible : Nat
  deriving Repr, DecidableEq

/-- One pass of the inner loop body of `get_concept_performance` for a
single concept tag of one question entry. -/
def bumpStats (q : AttemptEntry) (s : ConceptStats) : ConceptStats :=
  { attempts := s.attempts + 1
    correct := s.correct + (if q.correct then 1 else 0)
    points := s.points + q.pts_awarded
    total_possible := s.total_possible + q.difficulty }

/-- Updating the concept-stats dict at one concept key: initialise the entry
to zeros when absent (preserving dict insertion order), then apply the loop
body. -/
def updateConcept (m : List (String × ConceptStats)) (c : String) (q : AttemptEntry) :
    List (String × ConceptStats) :=
  if m.any (fun p => p.1 == c) then
    m.map (fun p => if p.1 == c then (p.1, bumpStats q p.2) else p)
  else
    m ++ [(c, bumpStats q { attempts := 0, correct := 0, points := 0, total_possible := 0 })]

/-- `get_concept_performance` from report_utils.py (lines 51-73): for each
attempted question and each of its concept tags, bump attempts, corrects,
points earned and points possible (the question's difficulty). -/
def get_concept_performance (questions : List AttemptEntry) : List (String × ConceptStats) :=
  questions.foldl (fun m q => q.concepts.foldl (fun m2 c => updateConcept m2 c q) m) []

/-- `accuracy = correct / attempts if attempts > 0 else 0`, as an exact
rational. -/
def accuracy (s : ConceptStats) : ℚ :=
  if 0 < s.attempts then (s.correct : ℚ) / (s.attempts : ℚ) else 0

/-- `points_ratio = points / total_possible if total_possible > 0 else 0`,
as an exact rational. -/
def points_ratio (s : ConceptStats) : ℚ :=
  if 0 < s.total_possible then (s.points : ℚ) / (s.total_possible : ℚ) else 0

/-- The strength test of `analyze_strengths_weaknesses` with the default
thresholds: both accuracy and points-ratio at least 0.7. -/
def strengthCond (s : ConceptStats) : Prop :=
  7 / 10 ≤ accuracy s ∧ 7 / 10 ≤ points_ratio s

instance (s : ConceptStats) : Decidable (strengthCond s) := by
  unfold strengthCond; infer_instance

/-- The weakness test of `analyze_strengths_weaknesses` with the default
thresholds: accuracy or points-ratio at most 0.4 (reached only when the
strength test failed, because of the `elif`). -/
def weakCond (s : ConceptStats) : Prop :=
  accuracy s ≤ 2 / 5 ∨ points_ratio s ≤ 2 / 5

instance (s : ConceptStats) : Decidable (weakCond s) := by
  unfold weakCond; infer_instance

/-- The classified strength triples (concept, accuracy, points_ratio) in
dict iteration order, before sorting and truncation. -/
def strengthsAll (m : List (String × ConceptStats)) : List (String × ℚ × ℚ) :=
  (m.filter (fun p => decide (strengthCond p.2))).map
    (fun p => (p.1, accuracy p.2, points_ratio p.2))

/-- The classified weakness triples in dict iteration order: entries that
fail the strength test and pass the weakness test (the `elif` branch). -/
def weaknessesAll (m : List (String × ConceptStats)) : List (String × ℚ × ℚ) :=
  (m.filter (fun p => !(decide (strengthCond p.2)) && decide (weakCond p.2))).map
    (fun p => (p.1, accuracy p.2, points_ratio p.2))

/-- Descending-by-accuracy comparison used for
`sorted(strengths, key accuracy, reverse=True)`; a stable sort with this
total preorder is exactly Python's stable descending key sort. -/
def descAcc (x y : String × ℚ × ℚ) : Prop := y.2.1 ≤ x.2.1

instance : DecidableRel descAcc := fun x y => by unfold descAcc; infer_instance

/-- Ascending-by-accuracy comparison used for
`sorted(weaknesses, key accuracy)`. -/
def ascAcc (x y : String × ℚ × ℚ) : Prop := x.2.1 ≤ y.2.1

instance : DecidableRel ascAcc := fun x y => by unfold ascAcc; infer_instance

/-- `analyze_strengths_weaknesses` from report_utils.py (lines 75-92) at the
default thresholds: classify each concept, sort strengths descending and
weaknesses ascending by accuracy (stable, as Python's sort), and keep the
top 3 of each. -/
def analyze_strengths_weaknesses (m : List (String × ConceptStats)) :
    List (String × ℚ × ℚ) × List (String × ℚ × ℚ) :=
  ((List.insertionSort descAcc (strengthsAll m)).take 3,
   (List.insertionSort ascAcc (weaknessesAll m)).take 3)

end Report

namespace Adaptive

/-- `DIFFICULTY_LEVELS` from adaptive.py (string enum). -/
def DIFFICULTY_LEVELS : List String := ["easy", "medium", "hard"]

/-- `POINTS_PER_DIFFICULTY.get(d, 1)` from adaptive.py:
{"easy": 1, "medium": 2, "hard": 3} with default 1. -/
def POINTS_PER_DIFFICULTY (d : String) : Nat :=
  if d = "easy" then 1 else if d = "medium" then 2 else if d = "hard" then 3 else 1

/-- `CORRECTS_TO_PROMOTE` from adaptive.py. -/
def CORRECTS_TO_PROMOTE : Nat := 3

/-- The per-attempt state dict of adaptive.py's `init_user_game_state`
(current_level is the string difficulty enum). -/
structure AState where
  current_level : String
  streak_at_level : Nat
  total_points : Nat
  max_streak : Nat
  current_streak : Nat
  answered_this_attempt : List String
  deriving Repr, DecidableEq

/-- adaptive.py's `init_user_game_state()`. -/
def init_user_game_state : AState :=
  { current_level := "easy"
    streak_at_level := 0
    total_points := 0
    max_streak := 0
    current_streak := 0
    answered_this_attempt := [] }

/-- The state-update portion of `handle_answer` in adaptive.py (lines 52-76):
points are taken from `POINTS_PER_DIFFICULTY.get(state["current_level"], 1)`
and level moves along `DIFFICULTY_LEVELS` by list index. -/
def handle_answer_state (is_correct : Bool) (q_id : String) (s : AState) : AState :=
  let s1 := { s with answered_this_attempt := s.answered_this_attempt ++ [q_id] }
  let s2 := { s1 with current_streak := s1.current_streak + (if is_correct then 1 else 0) }
  let s3 := { s2 with max_streak := max s2.max_streak s2.current_streak }
  if is_correct then
    let pts := POINTS_PER_DIFFICULTY s3.current_level
    let s4 := { s3 with total_points := s3.total_points + pts
                        streak_at_level := s3.streak_at_level + 1 }
    if s4.streak_at_level ≥ CORRECTS_TO_PROMOTE then
      let cur_index := DIFFICULTY_LEVELS.indexOf s4.current_level
      let s5 := if cur_index < DIFFICULTY_LEVELS.length - 1 then
                  { s4 with current_level := DIFFICULTY_LEVELS.getD (cur_index + 1) "" }
                else s4
      { s5 with streak_at_level := 0 }
    else s4
  else
    let cur_index := DIFFICULTY_LEVELS.indexOf s3.current_level
    let s4 := if cur_index > 0 then
                { s3 with current_level := DIFFICULTY_LEVELS.getD (cur_index - 1) "" }
              else s3
    { s4 with streak_at_level := 0
              current_streak := 0 }

/-- The numeric image of the string levels under the mapping
easy = 1, medium = 2, hard = 3 (position in `DIFFICULTY_LEVELS` plus one). -/
def levelToNat (lvl : String) : Nat := DIFFICULTY_LEVELS.indexOf lvl + 1

/-- Reading an adaptive.py state as a game_logic.py state under the
easy = 1, medium = 2, hard = 3 level mapping. -/
def abstractState (s : AState) : SkillGames.GameState :=
  { current_level := levelToNat s.current_level
    streak_at_level := s.streak_at_level
    total_points := s.total_points
    max_streak := s.max_streak
    current_streak := s.current_streak
    answered_this_attempt := s.answered_this_attempt }

end Adaptive

namespace SkillGames

/-- Closed form of one `process_answer_state` transition, separating the
correct and incorrect branches into explicit record values. -/
lemma process_answer_state_eq (q : Question) (b : Bool) (s : GameState) :
    process_answer_state q b s =
      if b then
        { current_level :=
            if 3 ≤ s.streak_at_level + 1 ∧ s.current_level < 3 then s.current_level + 1
            else s.current_level
          streak_at_level := if 3 ≤ s.streak_at_level + 1 then 0 else s.streak_at_level + 1
          total_points := s.total_points + POINTS_PER_DIFFICULTY q.difficulty
          max_streak := max s.max_streak (s.current_streak + 1)
          current_streak := s.current_streak + 1
          answered_this_attempt := s.answered_this_attempt ++ [q.id] }
      else
        { current_level := if 1 < s.current_level then s.current_level - 1 else s.current_level
          streak_at_level := 0
          total_points := s.total_points
          max_streak := max s.max_streak s.current_streak
          current_streak := 0
          answered_this_attempt := s.answered_this_attempt ++ [q.id] } := by
  cases b <;>
    simp only [process_answer_state, awarded_points, CORRECTS_TO_PROMOTE,
      Bool.false_eq_true, if_false, if_true, ge_iff_le] <;>
    split_ifs with h1 h2 <;>
    simp_all <;> omega

/-- Projection: streak after a correct answer. -/
lemma streak_after_correct (q : Question) (s : GameState) :
    (process_answer_state q true s).streak_at_level =
      if 3 ≤ s.streak_at_level + 1 then 0 else s.streak_at_level + 1 := by
  simp [process_answer_state_eq]

/-- Projection: level after a correct answer. -/
lemma level_after_correct (q : Question) (s : GameState) :
    (process_answer_state q true s).current_level =
      if 3 ≤ s.streak_at_level + 1 ∧ s.current_level < 3 then s.current_level + 1
      else s.current_level := by
  simp [process_answer_state_eq]

/-- Projection: points after a correct answer. -/
lemma points_after_correct (q : Question) (s : GameState) :
    (process_answer_state q true s).total_points =
      s.total_points + POINTS_PER_DIFFICULTY q.difficulty := by
  simp [process_answer_state_eq]

/-- Projection: current streak after a correct answer. -/
lemma cs_after_correct (q : Question) (s : GameState) :
    (process_answer_state q true s).current_streak = s.current_streak + 1 := by
  simp [process_answer_state_eq]

/-- Projection: max streak after a correct answer. -/
lemma ms_after_correct (q : Question) (s : GameState) :
    (process_answer_state q true s).max_streak = max s.max_streak (s.current_streak + 1) := by
  simp [process_answer_state_eq]

/-- Projection: level after a wrong answer. -/
lemma level_after_wrong (q : Question) (s : GameState) :
    (process_answer_state q false s).current_level =
      if 1 < s.current_level then s.current_level - 1 else s.current_level := by
  simp [process_answer_state_eq]

/-- Projection: streak after a wrong answer. -/
lemma streak_after_wrong (q : Question) (s : GameState) :
    (process_answer_state q false s).streak_at_level = 0 := by
  simp [process_answer_state_eq]

/-- Projection: current streak after a wrong answer. -/
lemma cs_after_wrong (q : Question) (s : GameState) :
    (process_answer_state q false s).current_streak = 0 := by
  simp [process_answer_state_eq]

/-- Projection: max streak after a wrong answer. -/
lemma ms_after_wrong (q : Question) (s : GameState) :
    (process_answer_state q false s).max_streak = max s.max_streak s.current_streak := by
  simp [process_answer_state_eq]

/-- Projection: points after a wrong answer. -/
lemma points_after_wrong (q : Question) (s : GameState) :
    (process_answer_state q false s).total_points = s.total_points := by
  simp [process_answer_state_eq]

/-- Projection: the answered-id list grows by the question id on any answer. -/
lemma answered_after (q : Question) (b : Bool) (s : GameState) :
    (process_answer_state q b s).answered_this_attempt =
      s.answered_this_attempt ++ [q.id] := by
  cases b <;> simp [process_answer_state_eq]

/-- The level stays in the interval [1, 3] across one transition. -/
lemma level_bounds_step (q : Question) (b : Bool) (s : GameState)
    (h1 : 1 ≤ s.current_level) (h3 : s.current_level ≤ 3) :
    1 ≤ (process_answer_state q b s).current_level ∧
      (process_answer_state q b s).current_level ≤ 3 := by
  cases b
  · rw [level_after_wrong]; split_ifs <;> omega
  · rw [level_after_correct]; split_ifs <;> omega

/-- The level stays in the interval [1, 3] across any run. -/
lemma level_bounds_run (outcomes : List (Question × Bool)) (s : GameState)
    (h1 : 1 ≤ s.current_level) (h3 : s.current_level ≤ 3) :
    1 ≤ (run_answers s outcomes).current_level ∧
      (run_answers s outcomes).current_level ≤ 3 := by
  induction outcomes generalizing s with
  | nil => exact ⟨h1, h3⟩
  | cons qb rest ih =>
      have hs := level_bounds_step qb.1 qb.2 s h1 h3
      simpa [run_answers, List.foldl_cons] using ih _ hs.1 hs.2

/-- C2: starting from `init_user_game_state`, after any finite sequence of
answers processed by `process_answer`, `current_level` stays in {1, 2, 3}:
it never goes below 1 and never exceeds 3. -/
theorem C2_level_invariant (outcomes : List (Question × Bool)) :
    1 ≤ (run_answers init_user_game_state outcomes).current_level ∧
      (run_answers init_user_game_state outcomes).current_level ≤ 3 :=
  level_bounds_run outcomes init_user_game_state (by decide) (by decide)

/-- C3: a correct answer increments `streak_at_level`; when the incremented
streak reaches the threshold 3, exactly one promotion happens: the level
goes up by one unless already at the cap 3, and the streak resets to 0.
Three consecutive correct answers starting from a stable level
(streak 0, as after promotion, demotion or attempt start) leave the level
unchanged on the first two answers and promote exactly once on the third. -/
theorem C3_promotion_law :
    (∀ (q : Question) (s : GameState),
      (s.streak_at_level + 1 < 3 →
        (process_answer_state q true s).streak_at_level = s.streak_at_level + 1 ∧
        (process_answer_state q true s).current_level = s.current_level) ∧
      (3 ≤ s.streak_at_level + 1 →
        (process_answer_state q true s).streak_at_level = 0 ∧
        (process_answer_state q true s).current_level =
          (if s.current_level < 3 then s.current_level + 1 else s.current_level))) ∧
    (∀ (q1 q2 q3 : Question) (s : GameState), s.streak_at_level = 0 →
      (process_answer_state q1 true s).current_level = s.current_level ∧
      (process_answer_state q2 true (process_answer_state q1 true s)).current_level =
        s.current_level ∧
      (process_answer_state q3 true
          (process_answer_state q2 true (process_answer_state q1 true s))).streak_at_level = 0 ∧
      (process_answer_state q3 true
          (process_answer_state q2 true (process_answer_state q1 true s))).current_level =
        (if s.current_level < 3 then s.current_level + 1 else s.current_level)) := by
  constructor
  · intro q s
    constructor
    · intro h
      refine ⟨?_, ?_⟩
      · rw [streak_after_correct, if_neg (by omega)]
      · rw [level_after_correct, if_neg (by rintro ⟨h1, h2⟩; omega)]
    · intro h
      refine ⟨?_, ?_⟩
      · rw [streak_after_correct, if_pos h]
      · rw [level_after_correct]
        by_cases hb : s.current_level < 3
        · rw [if_pos ⟨h, hb⟩, if_pos hb]
        · rw [if_neg (by rintro ⟨h1, h2⟩; omega), if_neg hb]
  · intro q1 q2 q3 s h0
    have hs1 : (process_answer_state q1 true s).streak_at_level = 1 := by
      rw [streak_after_correct, h0, if_neg (by omega)]
    have hl1 : (process_answer_state q1 true s).current_level = s.current_level := by
      rw [level_after_correct, h0, if_neg (by rintro ⟨h1, h2⟩; omega)]
    have hs2 : (process_answer_state q2 true (process_answer_state q1 true s)).streak_at_level
        = 2 := by
      rw [streak_after_correct, hs1, if_neg (by omega)]
    have hl2 : (process_answer_state q2 true (process_answer_state q1 true s)).current_level
        = s.current_level := by
      rw [level_after_correct, hs1, hl1, if_neg (by rintro ⟨h1, h2⟩; omega)]
    have hs3 := streak_after_correct q3 (process_answer_state q2 true (process_answer_state q1 true s))
    have hl3 := level_after_correct q3 (process_answer_state q2 true (process_answer_state q1 true s))
    rw [hs2] at hs3
    rw [hs2, hl2] at hl3
    refine ⟨hl1, hl2, ?_, ?_⟩
    · rw [hs3, if_pos (by omega)]
    · rw [hl3]
      by_cases hb : s.current_level < 3
      · rw [if_pos ⟨by omega, hb⟩, if_pos hb]
      · rw [if_neg (by rintro ⟨h1, h2⟩; omega), if_neg hb]

/-- Witness for C3 at a concrete state: from level 1 with streak 0, three
correct answers promote to level 2 with streak 0. -/
theorem C3_promotion_law_witness :
    (process_answer_state ⟨"q3", "a", 1, "t"⟩ true
        (process_answer_state ⟨"q2", "a", 1, "t"⟩ true
          (process_answer_state ⟨"q1", "a", 1, "t"⟩ true init_user_game_state))).current_level
      = 2 := by
  have h := (C3_promotion_law.2 ⟨"q1", "a", 1, "t"⟩ ⟨"q2", "a", 1, "t"⟩ ⟨"q3", "a", 1, "t"⟩
    init_user_game_state rfl).2.2.2
  simpa using h

/-- After any transition the current streak is at most the max streak (the
high-water-mark update runs on every answer). -/
lemma streak_le_max_step (q : Question) (b : Bool) (s : GameState) :
    (process_answer_state q b s).current_streak ≤ (process_answer_state q b s).max_streak := by
  cases b
  · rw [cs_after_wrong]; omega
  · rw [cs_after_correct, ms_after_correct]; omega

/-- Every state reached from `init_user_game_state` has
`current_streak ≤ max_streak`. -/
lemma streak_le_max_run (outcomes : List (Question × Bool)) :
    (run_answers init_user_game_state outcomes).current_streak ≤
      (run_answers init_user_game_state outcomes).max_streak := by
  induction outcomes using List.reverseRecOn with
  | nil => simp [run_answers, init_user_game_state]
  | append_singleton rest qb _ =>
      simp only [run_answers, List.foldl_append, List.foldl_cons, List.foldl_nil]
      exact streak_le_max_step qb.1 qb.2 _

/-- C4: on any state reachable from `init_user_game_state`, a single
incorrect answer decrements `current_level` by exactly 1 (or leaves it at 1
at the floor), resets `streak_at_level` and `current_streak` to 0, and
leaves `max_streak` and `total_points` unchanged. -/
theorem C4_demotion_law (outcomes : List (Question × Bool)) (q : Question) :
    (1 < (run_answers init_user_game_state outcomes).current_level →
      (process_answer_state q false (run_answers init_user_game_state outcomes)).current_level =
        (run_answers init_user_game_state outcomes).current_level - 1) ∧
    ((run_answers init_user_game_state outcomes).current_level = 1 →
      (process_answer_state q false (run_answers init_user_game_state outcomes)).current_level = 1) ∧
    (process_answer_state q false (run_answers init_user_game_state outcomes)).streak_at_level = 0 ∧
    (process_answer_state q false (run_answers init_user_game_state outcomes)).current_streak = 0 ∧
    (process_answer_state q false (run_answers init_user_game_state outcomes)).max_streak =
      (run_answers init_user_game_state outcomes).max_streak ∧
    (process_answer_state q false (run_answers init_user_game_state outcomes)).total_points =
      (run_answers init_user_game_state outcomes).total_points := by
  have hmax := streak_le_max_run outcomes
  refine ⟨?_, ?_, streak_after_wrong q _, cs_after_wrong q _, ?_, points_after_wrong q _⟩
  · intro h; rw [level_after_wrong, if_pos h]
  · intro h; rw [level_after_wrong, if_neg (by omega)]; exact h
  · rw [ms_after_wrong]; omega

/-- Witness for C4 at a concrete reachable state: after one correct answer
at level 1 a wrong answer keeps the level at 1, zeroes the streaks, and
keeps the point total and max streak. -/
theorem C4_demotion_law_witness :
    (process_answer_state ⟨"q2", "a", 1, "t"⟩ false
        (run_answers init_user_game_state [(⟨"q1", "a", 1, "t"⟩, true)])).current_level = 1 ∧
    (process_answer_state ⟨"q2", "a", 1, "t"⟩ false
        (run_answers init_user_game_state [(⟨"q1", "a", 1, "t"⟩, true)])).total_points =
      (run_answers init_user_game_state [(⟨"q1", "a", 1, "t"⟩, true)]).total_points := by
  have h := C4_demotion_law [(⟨"q1", "a", 1, "t"⟩, true)] ⟨"q2", "a", 1, "t"⟩
  exact ⟨h.2.1 (by decide), h.2.2.2.2.2⟩

end SkillGames

namespace Adaptive

/-- A question record as used by adaptive.py (string difficulty enum). -/
structure AQuestion where
  id : String
  difficulty : String
  deriving Repr, DecidableEq

/-- The point total written by `handle_answer` in adaptive.py: on a correct
answer it adds `POINTS_PER_DIFFICULTY.get(state["current_level"], 1)` — the
value of the attempt's current level, not of the answered question. -/
lemma handle_total (is_correct : Bool) (q_id : String) (s : AState) :
    (handle_answer_state is_correct q_id s).total_points =
      s.total_points + (if is_correct then POINTS_PER_DIFFICULTY s.current_level else 0) := by
  cases is_correct <;> simp [handle_answer_state] <;> split_ifs <;> simp

end Adaptive

/-- Counterexample to C1 as stated: `handle_answer` in adaptive.py does not
award points by the answered question's own difficulty.  Answering the
medium question `⟨"m1", "medium"⟩` correctly from the initial (easy-level)
state awards 1 point, while the question's difficulty is worth 2. -/
theorem C1_counterexample :
    (Adaptive.handle_answer_state true (Adaptive.AQuestion.mk "m1" "medium").id
        Adaptive.init_user_game_state).total_points = 1 ∧
    Adaptive.POINTS_PER_DIFFICULTY (Adaptive.AQuestion.mk "m1" "medium").difficulty = 2 ∧
    (1 : Nat) ≠ 2 := by
  refine ⟨rfl, rfl, by decide⟩

open SkillGames in
/-- C1 amended: `process_answer` in game_logic.py awards, exactly when the
selected option equals the question's answer, the point value of the
question's own difficulty (1 → 1, 2 → 2, 3 → 3), and `total_points` grows
by exactly the awarded amount (0 on a wrong answer), for every state and so
regardless of `current_level`.  `handle_answer` in adaptive.py instead
awards, exactly on a correct answer, the point value of the attempt's
current level (easy = 1, medium = 2, hard = 3), not of the question. -/
theorem C1_points_policy :
    (∀ (q : Question) (selected : String) (s : GameState),
      (process_answer q selected s).1 =
        (if selected = q.answer then POINTS_PER_DIFFICULTY q.difficulty else 0) ∧
      (process_answer q selected s).2.total_points =
        s.total_points + (process_answer q selected s).1) ∧
    (POINTS_PER_DIFFICULTY 1 = 1 ∧ POINTS_PER_DIFFICULTY 2 = 2 ∧ POINTS_PER_DIFFICULTY 3 = 3) ∧
    (∀ (is_correct : Bool) (q_id : String) (a : Adaptive.AState),
      (Adaptive.handle_answer_state is_correct q_id a).total_points =
        a.total_points +
          (if is_correct then Adaptive.POINTS_PER_DIFFICULTY a.current_level else 0)) := by
  refine ⟨?_, ⟨rfl, rfl, rfl⟩, Adaptive.handle_total⟩
  intro q selected s
  constructor
  · simp [process_answer, awarded_points, beq_iff_eq]
  · by_cases h : selected = q.answer
    · simp [process_answer, h, awarded_points, points_after_correct]
    · have hb : (selected == q.answer) = false := beq_eq_false_iff_ne.mpr h
      simp [process_answer, hb, awarded_points, points_after_wrong]

/-- Counterexample to C9 as stated: from the initial state, answering a
difficulty-2 question correctly produces different successor states in the
two machines — game_logic.py adds 2 points, adaptive.py adds 1. -/
theorem C9_counterexample :
    SkillGames.process_answer_state ⟨"q1", "a", 2, "t"⟩ true
        (Adaptive.abstractState Adaptive.init_user_game_state) ≠
      Adaptive.abstractState
        (Adaptive.handle_answer_state true "q1" Adaptive.init_user_game_state) := by
  decide

open SkillGames Adaptive in
/-- C9 amended: under the mapping easy = 1, medium = 2, hard = 3 the two
answer-processing machines produce the same successor `current_level`,
`streak_at_level`, `current_streak`, `max_streak` and
`answered_this_attempt` for every state whose level is a valid enum value
and every answered question; the successor states agree completely
(including `total_points`) exactly under the additional hypothesis that the
question's difficulty-based point value equals the point value of the
attempt's current level — in particular whenever the served question is at
the current level — and can differ otherwise, as the counterexample shows. -/
theorem C9_machines_agree (a : Adaptive.AState)
    (hlvl : a.current_level ∈ Adaptive.DIFFICULTY_LEVELS) (q : Question) (correct : Bool) :
    ((process_answer_state q correct (abstractState a)).current_level =
        levelToNat (handle_answer_state correct q.id a).current_level ∧
      (process_answer_state q correct (abstractState a)).streak_at_level =
        (handle_answer_state correct q.id a).streak_at_level ∧
      (process_answer_state q correct (abstractState a)).current_streak =
        (handle_answer_state correct q.id a).current_streak ∧
      (process_answer_state q correct (abstractState a)).max_streak =
        (handle_answer_state correct q.id a).max_streak ∧
      (process_answer_state q correct (abstractState a)).answered_this_attempt =
        (handle_answer_state correct q.id a).answered_this_attempt) ∧
    (SkillGames.POINTS_PER_DIFFICULTY q.difficulty =
        Adaptive.POINTS_PER_DIFFICULTY a.current_level →
      process_answer_state q correct (abstractState a) =
        abstractState (handle_answer_state correct q.id a)) := by
  obtain ⟨lvl, streak, tp, ms, cs, ans⟩ := a
  simp only [Adaptive.DIFFICULTY_LEVELS, List.mem_cons, List.not_mem_nil, or_false] at hlvl
  rcases hlvl with h | h | h <;> subst h <;> cases correct <;>
    constructor <;>
    [skip; intro hpts; skip; intro hpts; skip; intro hpts; skip; intro hpts; skip; intro hpts;
     skip; intro hpts] <;>
    simp_all [process_answer_state_eq, handle_answer_state, abstractState, levelToNat,
      Adaptive.DIFFICULTY_LEVELS, Adaptive.CORRECTS_TO_PROMOTE,
      SkillGames.GameState.mk.injEq] <;>
    split_ifs <;> simp_all <;> omega

open SkillGames Adaptive in
/-- Witness for C9 at a concrete input: for the initial adaptive state and
an easy (difficulty-1) question the two machines agree on the whole
successor state. -/
theorem C9_machines_agree_witness :
    process_answer_state ⟨"e1", "a", 1, "t"⟩ true
        (abstractState Adaptive.init_user_game_state) =
      abstractState
        (handle_answer_state true "e1" Adaptive.init_user_game_state) :=
  (C9_machines_agree Adaptive.init_user_game_state (by decide) ⟨"e1", "a", 1, "t"⟩ true).2
    (by decide)

namespace SkillGames

/-- A successful `select_question` pick is one of the filtered candidates. -/
lemma select_question_mem {qs : List Question} {lvl : Nat} {excl : List String} {k : Nat}
    {q : Question} (h : select_question qs lvl excl k = some q) :
    q ∈ select_candidates qs lvl excl := by
  simp only [select_question] at h
  split_ifs at h with he
  exact List.get?_mem h

/-- Membership in the candidate list decodes into the three filter
conditions of `select_question`. -/
lemma select_candidates_spec {qs : List Question} {lvl : Nat} {excl : List String}
    {q : Question} (h : q ∈ select_candidates qs lvl excl) :
    q ∈ qs ∧ q.difficulty = lvl ∧ q.id ∉ excl := by
  unfold select_candidates at h
  rw [List.mem_filter] at h
  obtain ⟨hq, hb⟩ := h
  simp only [Bool.and_eq_true, beq_iff_eq, Bool.not_eq_true', List.contains,
    List.elem_eq_mem, decide_eq_false_iff_not] at hb
  exact ⟨hq, hb.1, hb.2⟩

/-- `select_question` fails exactly when no candidate exists. -/
lemma select_question_none_iff (qs : List Question) (lvl : Nat) (excl : List String) (k : Nat) :
    select_question qs lvl excl k = none ↔ select_candidates qs lvl excl = [] := by
  simp only [select_question]
  split_ifs with he
  · simpa [List.isEmpty_iff] using he
  · rw [List.isEmpty_iff] at he
    have hlen : 0 < (select_candidates qs lvl excl).length :=
      List.length_pos.mpr he
    have hk := Nat.mod_lt k hlen
    rw [List.get?_eq_get hk]
    simp [he]

end SkillGames

namespace SkillGames

/-- A question picked by `select_question` is never one of the excluded ids. -/
lemma select_question_not_excluded {qs : List Question} {lvl : Nat} {excl : List String}
    {k : Nat} {q : Question} (h : select_question qs lvl excl k = some q) : q.id ∉ excl :=
  (select_candidates_spec (select_question_mem h)).2.2

/-- The fallback over the remaining levels also never offers an excluded id. -/
lemma fallback_levels_not_excluded {qs : List Question} {excl : List String} {k : Nat} :
    ∀ {ls : List Nat} {q : Question}, fallback_levels qs excl k ls = some q → q.id ∉ excl := by
  intro ls
  induction ls with
  | nil => intro q h; simp [fallback_levels] at h
  | cons lvl rest ih =>
      intro q h
      rw [fallback_levels] at h
      cases hsel : select_question qs lvl excl k with
      | some q2 =>
          rw [hsel] at h
          cases h
          exact select_question_not_excluded hsel
      | none =>
          rw [hsel] at h
          exact ih h

/-- The next question chosen inside `process_answer` (current level or
fallback levels) is never one of the excluded ids. -/
lemma process_answer_next_not_excluded {qs : List Question} {lvl : Nat} {excl : List String}
    {k : Nat} {q : Question} (h : process_answer_next qs lvl excl k = some q) :
    q.id ∉ excl := by
  rw [process_answer_next] at h
  cases hsel : select_question qs lvl excl k with
  | some q2 =>
      rw [hsel] at h
      cases h
      exact select_question_not_excluded hsel
  | none =>
      rw [hsel] at h
      exact fallback_levels_not_excluded h

/-- A question served by `get_next_question` is in the pool and is never one
of the excluded ids. -/
lemma get_next_question_spec {qs : List Question} {excl : List String} {lvl : Nat}
    {k : Nat} {q : Question} (h : get_next_question qs excl lvl k = some q) :
    q ∈ qs ∧ q.id ∉ excl := by
  rw [get_next_question] at h
  cases hsel : select_question qs lvl excl k with
  | some q2 =>
      rw [hsel] at h
      cases h
      have hc := select_candidates_spec (select_question_mem hsel)
      exact ⟨hc.1, hc.2.2⟩
  | none =>
      rw [hsel] at h
      simp only at h
      cases havail : qs.filter (fun q2 => !(excl.contains q2.id)) with
      | nil => rw [havail] at h; simp at h
      | cons x rest =>
          rw [havail] at h
          cases h
          have hx : q ∈ qs.filter (fun q2 => !(excl.contains q2.id)) := by
            rw [havail]; exact List.mem_cons_self _ _
          rw [List.mem_filter] at hx
          refine ⟨hx.1, ?_⟩
          have h2 := hx.2
          simp only [List.contains, List.elem_eq_mem, Bool.not_eq_true',
            decide_eq_false_iff_not] at h2
          exact h2

end SkillGames

namespace SkillGames

/-- `get_next_question` returns none exactly when every question of the pool
is excluded. -/
lemma get_next_question_none_iff (qs : List Question) (excl : List String) (lvl k : Nat) :
    get_next_question qs excl lvl k = none ↔ ∀ q ∈ qs, q.id ∈ excl := by
  constructor
  · intro h
    rw [get_next_question] at h
    cases hsel : select_question qs lvl excl k with
    | some q2 => rw [hsel] at h; simp at h
    | none =>
        rw [hsel] at h
        simp only [List.head?_eq_none_iff] at h
        rw [List.filter_eq_nil_iff] at h
        intro q hq
        have h2 := h q hq
        simp only [List.contains, List.elem_eq_mem, Bool.not_eq_true',
          decide_eq_false_iff_not, not_not] at h2
        exact h2
  · intro h
    rw [get_next_question]
    have hcand : select_candidates qs lvl excl = [] := by
      rw [select_candidates, List.filter_eq_nil_iff]
      intro q hq
      simp only [Bool.and_eq_true, beq_iff_eq, Bool.not_eq_true', List.contains,
        List.elem_eq_mem, decide_eq_false_iff_not, not_and, not_not]
      intro _
      exact h q hq
    rw [(select_question_none_iff qs lvl excl k).mpr hcand]
    simp only [List.head?_eq_none_iff]
    rw [List.filter_eq_nil_iff]
    intro q hq
    simp only [List.contains, List.elem_eq_mem, Bool.not_eq_true',
      decide_eq_false_iff_not, not_not]
    exact h q hq

/-- C10: on any pool and exclusion set, `get_next_question` returns none
exactly when every question in the pool is excluded; any served question is
a non-excluded member of the pool; and when no question matches the current
level the first non-excluded question of the pool in stored order is served
regardless of its difficulty. -/
theorem C10_exhaustion_totality (pool : List Question) (excl : List String) (lvl k : Nat) :
    (get_next_question pool excl lvl k = none ↔ ∀ q ∈ pool, q.id ∈ excl) ∧
    (∀ q, get_next_question pool excl lvl k = some q → q ∈ pool ∧ q.id ∉ excl) ∧
    (select_candidates pool lvl excl = [] →
      get_next_question pool excl lvl k =
        (pool.filter (fun q => !(excl.contains q.id))).head?) := by
  refine ⟨get_next_question_none_iff pool excl lvl k, fun q h => get_next_question_spec h, ?_⟩
  intro hcand
  rw [get_next_question, (select_question_none_iff pool lvl excl k).mpr hcand]

/-- Witness for C10 at a concrete pool: with the only level-1 question
excluded and the current level 1, the level-2 question is served as the
first non-excluded question, and it is a non-excluded pool member. -/
theorem C10_exhaustion_totality_witness :
    (⟨"q2", "b", 2, "t"⟩ : Question) ∈
        [(⟨"q1", "a", 1, "t"⟩ : Question), ⟨"q2", "b", 2, "t"⟩] ∧
      (Question.id ⟨"q2", "b", 2, "t"⟩) ∉ ["q1"] :=
  (C10_exhaustion_totality [⟨"q1", "a", 1, "t"⟩, ⟨"q2", "b", 2, "t"⟩] ["q1"] 1 0).2.1
    ⟨"q2", "b", 2, "t"⟩ (by decide)

end SkillGames

namespace SkillGames

/-- Invariant of the attempt loop: the answered-id list has no duplicates
and the question currently on offer (if any) is outside both the mastery
set and the answered-id list. -/
def attempt_inv (mastery : List String) (sq : GameState × Option Question) : Prop :=
  sq.1.answered_this_attempt.Nodup ∧
    ∀ q, sq.2 = some q → q.id ∉ mastery ∧ q.id ∉ sq.1.answered_this_attempt

/-- One `attempt_step` preserves the attempt-loop invariant. -/
lemma attempt_step_inv (qs : List Question) (mastery : List String)
    (sq : GameState × Option Question) (input : Bool × Nat)
    (h : attempt_inv mastery sq) : attempt_inv mastery (attempt_step qs mastery sq input) := by
  obtain ⟨hnd, hoffer⟩ := h
  rw [attempt_step]
  cases hq : sq.2 with
  | none => exact ⟨hnd, by simp [hq]⟩
  | some q =>
      have hqid := hoffer q hq
      constructor
      · simp only [answered_after, List.nodup_append, List.nodup_cons, List.nodup_nil,
          List.disjoint_singleton]
        exact ⟨hnd, by simp, hqid.2⟩
      · intro q2 h2
        simp only at h2
        have hex := process_answer_next_not_excluded h2
        rw [total_excluded] at hex
        simp only [List.mem_append, not_or] at hex
        exact ⟨hex.1, hex.2⟩

/-- The attempt-loop invariant holds after any run of the attempt loop. -/
lemma attempt_run_inv (qs : List Question) (mastery : List String) (k0 : Nat)
    (inputs : List (Bool × Nat)) : attempt_inv mastery (attempt_run qs mastery k0 inputs) := by
  rw [attempt_run]
  have hstart : attempt_inv mastery
      (init_user_game_state,
       get_next_question qs (total_excluded mastery init_user_game_state)
         init_user_game_state.current_level k0) := by
    constructor
    · simp [init_user_game_state]
    · intro q h
      have hex := (get_next_question_spec h).2
      rw [total_excluded] at hex
      simp only [List.mem_append, not_or] at hex
      exact ⟨hex.1, hex.2⟩
  generalize hsq : (init_user_game_state,
      get_next_question qs (total_excluded mastery init_user_game_state)
        init_user_game_state.current_level k0) = sq at hstart ⊢
  clear hsq
  induction inputs generalizing sq with
  | nil => exact hstart
  | cons input rest ih =>
      rw [List.foldl_cons]
      exact ih _ (attempt_step_inv qs mastery sq input hstart)

/-- C5: every selection path only serves non-excluded questions — a
successful `select_question`, the in-`process_answer` selection with its
fallback levels, and `get_next_question` never return a question whose id
is in the exclusion set — and over a whole attempt (exclusion set = mastery
set ∪ `answered_this_attempt`) the question on offer is never in the
mastery set nor already answered this attempt, and no id ever appears twice
in `answered_this_attempt`. -/
theorem C5_no_reoffer :
    (∀ (qs : List Question) (lvl : Nat) (excl : List String) (k : Nat) (q : Question),
      select_question qs lvl excl k = some q → q.id ∉ excl) ∧
    (∀ (qs : List Question) (lvl : Nat) (excl : List String) (k : Nat) (q : Question),
      process_answer_next qs lvl excl k = some q → q.id ∉ excl) ∧
    (∀ (qs : List Question) (excl : List String) (lvl k : Nat) (q : Question),
      get_next_question qs excl lvl k = some q → q.id ∉ excl) ∧
    (∀ (qs : List Question) (mastery : List String) (k0 : Nat) (inputs : List (Bool × Nat)),
      (attempt_run qs mastery k0 inputs).1.answered_this_attempt.Nodup ∧
      ∀ q, (attempt_run qs mastery k0 inputs).2 = some q →
        q.id ∉ mastery ∧
          q.id ∉ (attempt_run qs mastery k0 inputs).1.answered_this_attempt) :=
  ⟨fun _ _ _ _ _ h => select_question_not_excluded h,
   fun _ _ _ _ _ h => process_answer_next_not_excluded h,
   fun _ _ _ _ _ h => (get_next_question_spec h).2,
   fun qs mastery k0 inputs => attempt_run_inv qs mastery k0 inputs⟩

/-- Witness for C5 at a concrete input: the question served by
`select_question` out of a two-question pool with one excluded id has its
id outside the exclusion set. -/
theorem C5_no_reoffer_witness :
    (Question.id ⟨"q1", "a", 1, "t"⟩) ∉ ["q0"] :=
  C5_no_reoffer.1 [⟨"q1", "a", 1, "t"⟩] 1 ["q0"] 0 ⟨"q1", "a", 1, "t"⟩ (by decide)

end SkillGames

open SkillGames in
/-- C6: against the shipped `TOPICS` tree, `is_topic_unlocked` is true for
the root topic unconditionally (for every learner record, including a falsy
one, and every question bank), and for each of the two topics with
prerequisites it is true exactly when the learner's earned points in the
direct prerequisite topic (the sum computed by `get_topic_stats`, embedded
as `topic_points`) reach the topic's declared `points_required` of 1; the
result is computed from the mastery snapshot alone, with no stored
unlocked state. -/
theorem C6_skill_tree_gate (ud : Option UserData) (qs : List Question) :
    is_topic_unlocked "Hypothesis Testing" ud qs = true ∧
    (is_topic_unlocked "One Sample T-Test" ud qs = true ↔
      1 ≤ topic_points ud qs "Hypothesis Testing") ∧
    (is_topic_unlocked "Two Sample T-Test" ud qs = true ↔
      1 ≤ topic_points ud qs "Hypothesis Testing") := by
  cases ud with
  | none => simp [is_topic_unlocked, topic_points]
  | some u =>
      refine ⟨by simp [is_topic_unlocked], ?_, ?_⟩ <;>
        simp [is_topic_unlocked, findTopic, findTopicNameById, TOPICS, List.find?,
          Nat.zero_le]

open SkillGames in
/-- Witness for C6 at a concrete input: a learner who mastered the one
1-point root-topic question unlocks "One Sample T-Test". -/
theorem C6_skill_tree_gate_witness :
    is_topic_unlocked "One Sample T-Test"
      (some { answered_questions := ["h1"] })
      [{ id := "h1", answer := "a", difficulty := 1, topic := "Hypothesis Testing" }] = true :=
  (C6_skill_tree_gate (some { answered_questions := ["h1"] })
      [{ id := "h1", answer := "a", difficulty := 1, topic := "Hypothesis Testing" }]).2.1.mpr
    (by decide)

namespace SkillGames

instance : LeftCommutative (fun (a : Nat × List String) (m : Nat) => max a.1 m) :=
  ⟨fun a b c => by simp [Nat.max_left_comm]⟩

/-- The best score after committing a list of attempts is the maximum of the
starting best score and all the submitted totals. -/
lemma commit_attempts_best (attempts : List (Nat × List String)) :
    ∀ d : StoredUser, (commit_attempts d attempts).best_score =
      max d.best_score (attempts.foldr (fun a m => max a.1 m) 0) := by
  induction attempts with
  | nil => intro d; simp [commit_attempts]
  | cons a rest ih =>
      intro d
      simp only [commit_attempts, List.foldl_cons, List.foldr_cons]
      have h := ih (update_user_best_and_answers a.1 a.2 d)
      simp only [commit_attempts] at h
      rw [h, update_user_best_and_answers, Nat.max_assoc]

/-- C7: the mastery-ledger commit is monotone and idempotent — one
`update_user_best_and_answers` call sets the best score to the maximum of
the stored and the submitted score (so it never decreases) and the stored
mastered-id collection to the union of the stored ids and the submitted
ids, so every previously present id remains, a submitted id is present
afterwards, and each present id occurs exactly once; over any sequence of
attempts committed to a fresh record the persisted best equals the maximum
of the totals, independently of the order of the attempts. -/
theorem C7_mastery_ledger :
    (∀ (d : StoredUser) (t : Nat) (ids : List String),
      d.best_score ≤ (update_user_best_and_answers t ids d).best_score ∧
      (update_user_best_and_answers t ids d).best_score = max d.best_score t ∧
      (update_user_best_and_answers t ids d).answered_questions =
        d.answered_questions ∪ ids.toFinset ∧
      (∀ x, x ∈ (update_user_best_and_answers t ids d).answered_questions ↔
        x ∈ d.answered_questions ∨ x ∈ ids) ∧
      (∀ x, x ∈ (update_user_best_and_answers t ids d).answered_questions →
        Multiset.count x (update_user_best_and_answers t ids d).answered_questions.val = 1)) ∧
    (∀ attempts : List (Nat × List String),
      (commit_attempts create_user_record attempts).best_score =
        attempts.foldr (fun a m => max a.1 m) 0) ∧
    (∀ attempts1 attempts2 : List (Nat × List String), attempts1.Perm attempts2 →
      (commit_attempts create_user_record attempts1).best_score =
        (commit_attempts create_user_record attempts2).best_score) := by
  refine ⟨?_, ?_, ?_⟩
  · intro d t ids
    refine ⟨Nat.le_max_left _ _, rfl, rfl, ?_, ?_⟩
    · intro x
      simp [update_user_best_and_answers, Finset.mem_union, List.mem_toFinset]
    · intro x hx
      exact Multiset.count_eq_one_of_mem
        (update_user_best_and_answers t ids d).answered_questions.nodup hx
  · intro attempts
    rw [commit_attempts_best attempts create_user_record]
    simp [create_user_record]
  · intro a1 a2 hperm
    rw [commit_attempts_best a1 create_user_record,
      commit_attempts_best a2 create_user_record, hperm.foldr_eq 0]

/-- Witness for C7 at concrete inputs: two attempts committed in either
order persist the same best score, and a recommitted id stays present
exactly once. -/
theorem C7_mastery_ledger_witness :
    (commit_attempts create_user_record [(3, ["a"]), (5, ["b"])]).best_score =
      (commit_attempts create_user_record [(5, ["b"]), (3, ["a"])]).best_score ∧
    Multiset.count "a"
      (update_user_best_and_answers 4 ["a"]
        { best_score := 3, answered_questions := {"a"} }).answered_questions.val = 1 :=
  ⟨C7_mastery_ledger.2.2 [(3, ["a"]), (5, ["b"])] [(5, ["b"]), (3, ["a"])] (by decide),
   (C7_mastery_ledger.1 { best_score := 3, answered_questions := {"a"} } 4 ["a"]).2.2.2.2 "a"
     (by decide)⟩

end SkillGames

namespace Report

instance : IsTotal (String × ℚ × ℚ) descAcc :=
  ⟨fun a b => le_total b.2.1 a.2.1⟩

instance : IsTrans (String × ℚ × ℚ) descAcc :=
  ⟨fun _ _ _ hab hbc => le_trans hbc hab⟩

instance : IsTotal (String × ℚ × ℚ) ascAcc :=
  ⟨fun a b => le_total a.2.1 b.2.1⟩

instance : IsTrans (String × ℚ × ℚ) ascAcc :=
  ⟨fun _ _ _ hab hbc => le_trans hab hbc⟩

/-- Updating one concept key leaves the key list unchanged when the key is
present and appends the key when absent; either way key-nodup is kept. -/
lemma updateConcept_keys_nodup {m : List (String × ConceptStats)} {c : String}
    {q : AttemptEntry} (hnd : (m.map Prod.fst).Nodup) :
    ((updateConcept m c q).map Prod.fst).Nodup := by
  rw [updateConcept]
  split_ifs with h
  · have hmap : (m.map (fun p => if p.1 == c then (p.1, bumpStats q p.2) else p)).map Prod.fst
        = m.map Prod.fst := by
      rw [List.map_map]
      apply List.map_congr_left
      intro p _
      simp only [Function.comp_apply]
      split <;> rfl
    rw [hmap]
    exact hnd
  · rw [List.map_append, List.nodup_append]
    refine ⟨hnd, by simp, ?_⟩
    simp only [List.any_eq_true, not_exists, not_and, Bool.not_eq_true] at h
    simp only [List.map_cons, List.map_nil, List.disjoint_singleton]
    intro hc
    rw [List.mem_map] at hc
    obtain ⟨p, hp, hpc⟩ := hc
    have := h p hp
    rw [hpc] at this
    simp at this

/-- The concept-stats dict built by `get_concept_performance` has no
duplicate concept keys. -/
lemma get_concept_performance_keys_nodup (log : List AttemptEntry) :
    ((get_concept_performance log).map Prod.fst).Nodup := by
  rw [get_concept_performance]
  have hgen : ∀ (l : List AttemptEntry) (m : List (String × ConceptStats)),
      (m.map Prod.fst).Nodup →
      ((l.foldl (fun m2 q => q.concepts.foldl (fun m3 c => updateConcept m3 c q) m2) m).map
        Prod.fst).Nodup := by
    intro l
    induction l with
    | nil => intro m hm; exact hm
    | cons q rest ih =>
        intro m hm
        rw [List.foldl_cons]
        apply ih
        have hinner : ∀ (cs : List String) (m2 : List (String × ConceptStats)),
            (m2.map Prod.fst).Nodup →
            ((cs.foldl (fun m3 c => updateConcept m3 c q) m2).map Prod.fst).Nodup := by
          intro cs
          induction cs with
          | nil => intro m2 hm2; exact hm2
          | cons c crest ihc =>
              intro m2 hm2
              rw [List.foldl_cons]
              exact ihc _ (updateConcept_keys_nodup hm2)
        exact hinner q.concepts m hm
  exact hgen log [] (by simp)

/-- In an association list without duplicate keys, a key determines its
stats value. -/
lemma key_unique {m : List (String × ConceptStats)} (hnd : (m.map Prod.fst).Nodup)
    {c : String} {s1 s2 : ConceptStats} (h1 : (c, s1) ∈ m) (h2 : (c, s2) ∈ m) : s1 = s2 := by
  induction m with
  | nil => simp at h1
  | cons p rest ih =>
      rw [List.map_cons, List.nodup_cons] at hnd
      rcases List.mem_cons.mp h1 with he1 | hm1 <;> rcases List.mem_cons.mp h2 with he2 | hm2
      · exact congrArg Prod.snd (he1.trans he2.symm)
      · exfalso
        apply hnd.1
        rw [List.mem_map]
        exact ⟨(c, s2), hm2, by rw [← he1]⟩
      · exfalso
        apply hnd.1
        rw [List.mem_map]
        exact ⟨(c, s1), hm1, by rw [← he2]⟩
      · exact ih hnd.2 hm1 hm2

/-- Any member of the classified-strengths list comes from a dict entry that
passes the strength test, carrying that entry's two metrics. -/
lemma strengthsAll_spec {m : List (String × ConceptStats)} {x : String × ℚ × ℚ}
    (hx : x ∈ strengthsAll m) :
    ∃ s, (x.1, s) ∈ m ∧ strengthCond s ∧ x.2.1 = accuracy s ∧ x.2.2 = points_ratio s := by
  rw [strengthsAll, List.mem_map] at hx
  obtain ⟨p, hp, hpx⟩ := hx
  rw [List.mem_filter] at hp
  refine ⟨p.2, ?_, of_decide_eq_true hp.2, ?_, ?_⟩ <;> rw [← hpx]
  exact hp.1

/-- Any member of the classified-weaknesses list comes from a dict entry
that fails the strength test and passes the weakness test. -/
lemma weaknessesAll_spec {m : List (String × ConceptStats)} {x : String × ℚ × ℚ}
    (hx : x ∈ weaknessesAll m) :
    ∃ s, (x.1, s) ∈ m ∧ ¬ strengthCond s ∧ weakCond s ∧
      x.2.1 = accuracy s ∧ x.2.2 = points_ratio s := by
  rw [weaknessesAll, List.mem_map] at hx
  obtain ⟨p, hp, hpx⟩ := hx
  rw [List.mem_filter] at hp
  have hb := hp.2
  simp only [Bool.and_eq_true, Bool.not_eq_true', decide_eq_false_iff_not,
    decide_eq_true_eq] at hb
  refine ⟨p.2, ?_, hb.1, hb.2, ?_, ?_⟩ <;> rw [← hpx]
  exact hp.1

/-- A dict entry's triple is classified as a strength exactly when its stats
pass the strength test. -/
lemma mem_strengthsAll_iff {m : List (String × ConceptStats)}
    (hnd : (m.map Prod.fst).Nodup) {p : String × ConceptStats} (hp : p ∈ m) :
    (p.1, accuracy p.2, points_ratio p.2) ∈ strengthsAll m ↔ strengthCond p.2 := by
  constructor
  · intro hx
    obtain ⟨s, hs, hcond, _, _⟩ := strengthsAll_spec hx
    have : s = p.2 := key_unique hnd hs (by exact hp)
    rw [← this]; exact hcond
  · intro hcond
    rw [strengthsAll, List.mem_map]
    exact ⟨p, List.mem_filter.mpr ⟨hp, decide_eq_true hcond⟩, rfl⟩

/-- A dict entry's triple is classified as a weakness exactly when its stats
fail the strength test and pass the weakness test (the `elif`). -/
lemma mem_weaknessesAll_iff {m : List (String × ConceptStats)}
    (hnd : (m.map Prod.fst).Nodup) {p : String × ConceptStats} (hp : p ∈ m) :
    (p.1, accuracy p.2, points_ratio p.2) ∈ weaknessesAll m ↔
      (¬ strengthCond p.2 ∧ weakCond p.2) := by
  constructor
  · intro hx
    obtain ⟨s, hs, hns, hw, _, _⟩ := weaknessesAll_spec hx
    have : s = p.2 := key_unique hnd hs (by exact hp)
    rw [← this]; exact ⟨hns, hw⟩
  · intro hcond
    rw [weaknessesAll, List.mem_map]
    refine ⟨p, List.mem_filter.mpr ⟨hp, ?_⟩, rfl⟩
    simp only [Bool.and_eq_true, Bool.not_eq_true', decide_eq_false_iff_not,
      decide_eq_true_eq]
    exact hcond

/-- Membership in the reported strengths implies membership in the
classified list (take of a permutation). -/
lemma analyze_strengths_sub {m : List (String × ConceptStats)} {x : String × ℚ × ℚ}
    (hx : x ∈ (analyze_strengths_weaknesses m).1) : x ∈ strengthsAll m := by
  rw [analyze_strengths_weaknesses] at hx
  have h1 : x ∈ List.insertionSort descAcc (strengthsAll m) := List.take_subset 3 _ hx
  exact (List.perm_insertionSort descAcc (strengthsAll m)).mem_iff.mp h1

/-- Membership in the reported weaknesses implies membership in the
classified list. -/
lemma analyze_weaknesses_sub {m : List (String × ConceptStats)} {x : String × ℚ × ℚ}
    (hx : x ∈ (analyze_strengths_weaknesses m).2) : x ∈ weaknessesAll m := by
  rw [analyze_strengths_weaknesses] at hx
  have h1 : x ∈ List.insertionSort ascAcc (weaknessesAll m) := List.take_subset 3 _ hx
  exact (List.perm_insertionSort ascAcc (weaknessesAll m)).mem_iff.mp h1

end Report

open Report in
/-- C8: the concept-stats dict from `get_concept_performance` has each
concept once; against any such dict, `analyze_strengths_weaknesses`
classifies an entry's triple as a strength exactly when both accuracy and
points-ratio are at least 0.7 and as a weakness exactly when it is not a
strength and either metric is at most 0.4; every reported strength (resp.
weakness) satisfies its classification; no concept is reported in both
lists; the reported lists are sorted descending (resp. ascending) by
accuracy with at most 3 entries each; and a concept with accuracy strictly
between 0.4 and 0.7 and points-ratio above 0.4 is reported in neither. -/
theorem C8_strength_weakness (log : List AttemptEntry) :
    ((get_concept_performance log).map Prod.fst).Nodup ∧
    ∀ m : List (String × ConceptStats), (m.map Prod.fst).Nodup →
      (∀ p ∈ m, ((p.1, accuracy p.2, points_ratio p.2) ∈ strengthsAll m ↔ strengthCond p.2)) ∧
      (∀ p ∈ m, ((p.1, accuracy p.2, points_ratio p.2) ∈ weaknessesAll m ↔
        (¬ strengthCond p.2 ∧ weakCond p.2))) ∧
      (∀ x ∈ (analyze_strengths_weaknesses m).1, ∃ s, (x.1, s) ∈ m ∧ strengthCond s ∧
        x.2.1 = accuracy s ∧ x.2.2 = points_ratio s) ∧
      (∀ x ∈ (analyze_strengths_weaknesses m).2, ∃ s, (x.1, s) ∈ m ∧ ¬ strengthCond s ∧
        weakCond s ∧ x.2.1 = accuracy s ∧ x.2.2 = points_ratio s) ∧
      (∀ c, c ∈ (analyze_strengths_weaknesses m).1.map Prod.fst →
        c ∈ (analyze_strengths_weaknesses m).2.map Prod.fst → False) ∧
      ((analyze_strengths_weaknesses m).1.Sorted descAcc ∧
        (analyze_strengths_weaknesses m).2.Sorted ascAcc) ∧
      ((analyze_strengths_weaknesses m).1.length ≤ 3 ∧
        (analyze_strengths_weaknesses m).2.length ≤ 3) ∧
      (∀ p ∈ m, 2 / 5 < accuracy p.2 → accuracy p.2 < 7 / 10 →
        2 / 5 < points_ratio p.2 →
        p.1 ∉ (analyze_strengths_weaknesses m).1.map Prod.fst ∧
        p.1 ∉ (analyze_strengths_weaknesses m).2.map Prod.fst) := by
  refine ⟨get_concept_performance_keys_nodup log, ?_⟩
  intro m hnd
  refine ⟨fun p hp => mem_strengthsAll_iff hnd hp, fun p hp => mem_weaknessesAll_iff hnd hp,
    fun x hx => strengthsAll_spec (analyze_strengths_sub hx),
    fun x hx => weaknessesAll_spec (analyze_weaknesses_sub hx), ?_, ?_, ?_, ?_⟩
  · intro c hcs hcw
    rw [List.mem_map] at hcs hcw
    obtain ⟨x, hx, hxc⟩ := hcs
    obtain ⟨y, hy, hyc⟩ := hcw
    obtain ⟨s, hsm, hscond, _, _⟩ := strengthsAll_spec (analyze_strengths_sub hx)
    obtain ⟨t, htm, htcond, _, _, _⟩ := weaknessesAll_spec (analyze_weaknesses_sub hy)
    rw [hxc] at hsm
    rw [hyc] at htm
    exact htcond (key_unique hnd htm hsm ▸ hscond)
  · constructor
    · exact List.Pairwise.sublist (List.take_sublist 3 _)
        (List.sorted_insertionSort descAcc (strengthsAll m))
    · exact List.Pairwise.sublist (List.take_sublist 3 _)
        (List.sorted_insertionSort ascAcc (weaknessesAll m))
  · constructor
    · rw [analyze_strengths_weaknesses]
      exact List.length_take_le 3 _
    · rw [analyze_strengths_weaknesses]
      exact List.length_take_le 3 _
  · intro p hp hacc1 hacc2 hratio
    have hns : ¬ strengthCond p.2 := by
      rw [strengthCond]
      rintro ⟨ha, _⟩
      exact absurd hacc2 (not_lt.mpr ha)
    have hnw : ¬ weakCond p.2 := by
      rw [weakCond]
      rintro (hw | hw)
      · exact absurd hacc1 (not_lt.mpr hw)
      · exact absurd hratio (not_lt.mpr hw)
    constructor
    · intro hc
      rw [List.mem_map] at hc
      obtain ⟨x, hx, hxc⟩ := hc
      obtain ⟨s, hsm, hscond, _, _⟩ := strengthsAll_spec (analyze_strengths_sub hx)
      rw [hxc] at hsm
      exact hns (key_unique hnd hsm hp ▸ hscond)
    · intro hc
      rw [List.mem_map] at hc
      obtain ⟨x, hx, hxc⟩ := hc
      obtain ⟨s, hsm, _, hwcond, _, _⟩ := weaknessesAll_spec (analyze_weaknesses_sub hx)
      rw [hxc] at hsm
      exact hnw (key_unique hnd hsm hp ▸ hwcond)

open Report in
/-- Witness for C8 at a concrete input: a concept with accuracy 1/2 and
points-ratio 1/2 (both strictly between the 0.4 and 0.7 thresholds) is
reported neither as a strength nor as a weakness. -/
theorem C8_strength_weakness_witness :
    "variance" ∉
        ((analyze_strengths_weaknesses [("variance", ⟨2, 1, 1, 2⟩)]).1.map Prod.fst) ∧
    "variance" ∉
        ((analyze_strengths_weaknesses [("variance", ⟨2, 1, 1, 2⟩)]).2.map Prod.fst) :=
  ((C8_strength_weakness []).2 [("variance", ⟨2, 1, 1, 2⟩)] (by decide)).2.2.2.2.2.2.2
    ("variance", ⟨2, 1, 1, 2⟩) (by decide) (by norm_num [accuracy])
    (by norm_num [accuracy]) (by norm_num [points_ratio])
